import Mathlib

/-!
Verification of the monado build-time code generators against their
natural-language specification.  Shallow embedding of the Python sources:

* scripts/generate_vk_helpers.py : replace_middle, ConditionalGenerator,
  generate_per_command
* src/xrt/auxiliary/bindings/bindings.py : PathsByLengthCollector,
  Component parsing and path expansion, DPad parsing, diamond detection,
  fragments of generate_bindings_c
* src/xrt/ipc/ipcproto/common.py : Call id defaulting, Proto parsing

Python lists become Lean lists, Python sets become duplicate-free lists
(with the iteration order made an explicit parameter where emission
depends on it), `None` becomes `Option.none`, and a raised exception
becomes `Option.none` / an error value.
-/

/-- Embeds replace_middle from scripts/generate_vk_helpers.py.
Python list.index finds the first occurrence and raises ValueError when
the element is absent; the ValueError is modelled as none. -/
def replace_middle (lines : List String) (start_sentinel end_sentinel : String)
    (new_middle : List String) : Option (List String) :=
  match lines.findIdx? (· == start_sentinel), lines.findIdx? (· == end_sentinel) with
  | some istart, some iend =>
      some (lines.take (istart + 1) ++ new_middle ++ lines.drop iend)
  | _, _ => none

/-- First index of a string in a list where the prefix avoids it. -/
theorem findIdx_first_hit (xs ys : List String) (s : String) (h : s ∉ xs) :
    (xs ++ s :: ys).findIdx? (· == s) = some xs.length := by
  rw [List.findIdx?_append]
  have h1 : xs.findIdx? (· == s) = none := by
    rw [List.findIdx?_eq_none_iff]
    intro x hx
    simp only [beq_eq_false_iff_ne, ne_eq]
    rintro rfl
    exact h hx
  have h2 : (s :: ys).findIdx? (· == s) = some 0 := by
    simp [List.findIdx?_cons]
  rw [h1, h2]
  simp

/-- Core behaviour of replace_middle on a well-formed sentinel layout. -/
theorem replace_middle_eq (pre old post new : List String) (B E : String)
    (hB : B ∉ pre) (hE : E ∉ pre ++ [B] ++ old) :
    replace_middle (pre ++ [B] ++ old ++ [E] ++ post) B E new
      = some (pre ++ [B] ++ new ++ [E] ++ post) := by
  have hshape : pre ++ [B] ++ old ++ [E] ++ post
      = pre ++ B :: (old ++ E :: post) := by
    simp
  have hshape2 : pre ++ [B] ++ old ++ [E] ++ post
      = (pre ++ [B] ++ old) ++ E :: post := by
    simp
  have hfindB : (pre ++ [B] ++ old ++ [E] ++ post).findIdx? (· == B)
      = some pre.length := by
    rw [hshape]
    exact findIdx_first_hit pre (old ++ E :: post) B hB
  have hfindE : (pre ++ [B] ++ old ++ [E] ++ post).findIdx? (· == E)
      = some (pre ++ [B] ++ old).length := by
    rw [hshape2]
    exact findIdx_first_hit (pre ++ [B] ++ old) post E hE
  have htake : (pre ++ [B] ++ old ++ [E] ++ post).take (pre.length + 1)
      = pre ++ [B] := by
    have hlen : (pre ++ [B]).length = pre.length + 1 := by simp
    have : pre ++ [B] ++ old ++ [E] ++ post
        = (pre ++ [B]) ++ (old ++ [E] ++ post) := by simp
    rw [this, ← hlen, List.take_left]
  have hdrop : (pre ++ [B] ++ old ++ [E] ++ post).drop (pre ++ [B] ++ old).length
      = [E] ++ post := by
    have : pre ++ [B] ++ old ++ [E] ++ post
        = (pre ++ [B] ++ old) ++ ([E] ++ post) := by simp
    rw [this, List.drop_left]
  unfold replace_middle
  rw [hfindB, hfindE]
  dsimp only
  rw [htake, hdrop]
  simp

/-- C1: Sentinel round-trip.  For lines of the form
pre ++ [BEGIN] ++ old_middle ++ [END] ++ post, with BEGIN absent from pre
and END absent from pre ++ [BEGIN] ++ old_middle, replace_middle returns
exactly pre ++ [BEGIN] ++ new_middle ++ [END] ++ post; every line outside
the span strictly between the sentinels is unchanged. -/
theorem replace_middle_roundtrip (pre old_middle post new_middle : List String)
    (B E : String) (hB : B ∉ pre) (hE : E ∉ pre ++ [B] ++ old_middle) :
    replace_middle (pre ++ [B] ++ old_middle ++ [E] ++ post) B E new_middle
      = some (pre ++ [B] ++ new_middle ++ [E] ++ post) :=
  replace_middle_eq pre old_middle post new_middle B E hB hE

/-- Witness for C1 at a concrete file. -/
theorem replace_middle_roundtrip_witness :
    replace_middle (["a", "// BEGIN", "x", "y", "// END", "b"])
        "// BEGIN" "// END" ["z"]
      = some (["a", "// BEGIN", "z", "// END", "b"]) := by
  have h := replace_middle_roundtrip ["a"] ["x", "y"] ["b"] ["z"]
      "// BEGIN" "// END" (by decide) (by decide)
  simpa using h

/-- C2: Splicer idempotence.  When the first BEGIN sentinel occurs before
the first END sentinel (lines decompose as pre ++ [BEGIN] ++ mid ++ [END]
++ post with BEGIN absent from pre and END absent from
pre ++ [BEGIN] ++ mid) and new_middle contains neither sentinel, applying
replace_middle twice equals applying it once. -/
theorem replace_middle_idempotent (pre mid post new_middle : List String)
    (B E : String) (hB : B ∉ pre) (hE : E ∉ pre ++ [B] ++ mid)
    (hBn : B ∉ new_middle) (hEn : E ∉ new_middle) :
    (replace_middle (pre ++ [B] ++ mid ++ [E] ++ post) B E new_middle).bind
        (fun r => replace_middle r B E new_middle)
      = replace_middle (pre ++ [B] ++ mid ++ [E] ++ post) B E new_middle := by
  have hE2 : E ∉ pre ++ [B] ++ new_middle := by
    intro hmem
    rcases List.mem_append.mp hmem with h1 | h2
    · exact hE (by simpa using List.mem_append.mpr (Or.inl h1))
    · exact hEn h2
  rw [replace_middle_eq pre mid post new_middle B E hB hE]
  rw [Option.some_bind]
  rw [replace_middle_eq pre new_middle post new_middle B E hB hE2]

/-- Witness for C2 at a concrete file. -/
theorem replace_middle_idempotent_witness :
    (replace_middle (["a", "S", "x", "T", "b"]) "S" "T" ["z"]).bind
        (fun r => replace_middle r "S" "T" ["z"])
      = replace_middle (["a", "S", "x", "T", "b"]) "S" "T" ["z"] := by
  have h := replace_middle_idempotent ["a"] ["x"] ["b"] ["z"] "S" "T"
      (by decide) (by decide) (by decide) (by decide)
  simpa using h

/-- C3: Splicer failure.  When either sentinel is absent from the lines,
replace_middle reports an error (none, modelling the Python ValueError)
rather than returning any result, in particular never the input
unchanged. -/
theorem replace_middle_fails_without_sentinel (lines new_middle : List String)
    (B E : String) (h : B ∉ lines ∨ E ∉ lines) :
    replace_middle lines B E new_middle = none := by
  rcases h with h | h
  · have hB : lines.findIdx? (· == B) = none := by
      rw [List.findIdx?_eq_none_iff]
      intro x hx
      simp only [beq_eq_false_iff_ne, ne_eq]
      rintro rfl
      exact h hx
    unfold replace_middle
    rw [hB]
  · have hE : lines.findIdx? (· == E) = none := by
      rw [List.findIdx?_eq_none_iff]
      intro x hx
      simp only [beq_eq_false_iff_ne, ne_eq]
      rintro rfl
      exact h hx
    unfold replace_middle
    rw [hE]
    rcases lines.findIdx? (· == B) with _ | i <;> rfl

/-- Witness for C3 at a concrete file missing the END sentinel. -/
theorem replace_middle_fails_witness :
    replace_middle ["a", "S", "x"] "S" "T" ["z"] = none := by
  have h := replace_middle_fails_without_sentinel ["a", "S", "x"] ["z"] "S" "T"
      (Or.inr (by decide))
  simpa using h

/-- Python str(x) on an optional condition, as used by str.format. -/
def pyStr : Option String → String
  | some s => s
  | none => "None"

/-- Python truthiness of an optional string: None and "" are falsy. -/
def py_truthy : Option String → Bool
  | some s => !(s == "")
  | none => false

/-- Embeds ConditionalGenerator from scripts/generate_vk_helpers.py: the
state is the currently open preprocessor condition, if any. -/
structure ConditionalGenerator where
  current_condition : Option String

/-- Embeds ConditionalGenerator.process_condition: returns the optional
emitted text (the "\n"-joined lines) together with the updated state. -/
def process_condition (g : ConditionalGenerator) (new_condition : Option String) :
    Option String × ConditionalGenerator :=
  let step1 :=
    if py_truthy g.current_condition ∧ new_condition ≠ g.current_condition then
      ((["#endif // " ++ pyStr g.current_condition, ""] : List String),
       (none : Option String))
    else (([] : List String), g.current_condition)
  let step2 :=
    if new_condition ≠ step1.2 then
      (step1.1 ++ ["#if " ++ pyStr new_condition], new_condition)
    else step1
  (if step2.1.isEmpty then none else some (String.intercalate "\n" step2.1),
   ⟨step2.2⟩)

/-- Embeds ConditionalGenerator.finish: process a None condition to close
any open guard. -/
def ConditionalGenerator.finish (g : ConditionalGenerator) :
    Option String × ConditionalGenerator :=
  process_condition g none

/-- Embeds the Cmd entries of scripts/generate_vk_helpers.py: a Vulkan
command name, structure member name and preprocessor requirements. -/
structure Cmd where
  name : String
  member_name : String
  requires : List String

/-- Embeds wrap_condition from scripts/generate_vk_helpers.py; the Python
"defined" in condition test is substring containment. -/
def wrap_condition (condition : String) : String :=
  if "defined".data <:+: condition.data then condition
  else "defined(" ++ condition ++ ")"

/-- Embeds compute_condition from scripts/generate_vk_helpers.py. -/
def compute_condition (pp_conditions : List String) : Option String :=
  if pp_conditions.isEmpty then none
  else some (String.intercalate " && " (pp_conditions.map wrap_condition))

/-- Embeds the loop body of generate_per_command: falsy commands yield an
empty line, otherwise the optional condition line then the handler line;
at the end the generator is finished. -/
def generate_per_command_go (handler : Cmd → String) :
    List (Option Cmd) → ConditionalGenerator → List String
  | [], g =>
      match (ConditionalGenerator.finish g).1 with
      | some l => [l]
      | none => []
  | c :: rest, g =>
      match c with
      | none => "" :: generate_per_command_go handler rest g
      | some cmd =>
          let p := process_condition g (compute_condition cmd.requires)
          (match p.1 with
            | some l => [l]
            | none => []) ++ handler cmd :: generate_per_command_go handler rest p.2

/-- Embeds generate_per_command from scripts/generate_vk_helpers.py. -/
def generate_per_command (commands : List (Option Cmd)) (handler : Cmd → String) :
    List String :=
  generate_per_command_go handler commands ⟨none⟩

/-- Feed a list of conditions through process_condition, collecting each
optional emitted text and the final state. -/
def run_conditions (conds : List (Option String)) :
    List (Option String) × ConditionalGenerator :=
  conds.foldl (fun acc c =>
    let p := process_condition acc.2 c
    (acc.1 ++ [p.1], p.2)) ([], ⟨none⟩)

/-- The condition sequence of claim C4. -/
def c4_conditions : List (Option String) :=
  [none, some "A", some "A", some "B", none]

/-- All text emitted for c4_conditions, including the final finish. -/
def c4_emitted : List String :=
  ((run_conditions c4_conditions).1
    ++ [(ConditionalGenerator.finish (run_conditions c4_conditions).2).1]).reduceOption

/-- Split a character list at every occurrence of a separator. -/
def splitCharList (c : Char) : List Char → List (List Char)
  | [] => [[]]
  | ch :: rest =>
    match splitCharList c rest with
    | [] => [[]]
    | grp :: grps => if ch = c then [] :: grp :: grps else (ch :: grp) :: grps

/-- Split an emitted text into its lines. -/
def split_lines (s : String) : List String :=
  (splitCharList '\n' s.data).map (fun l => String.mk l)

/-- Whether a line starts with the given marker. -/
def line_starts_with (p l : String) : Bool :=
  l.data.take p.data.length == p.data

/-- The individual emitted lines for c4_conditions. -/
def c4_emitted_lines : List String :=
  c4_emitted.flatMap split_lines

/-- C4: Guard-grouping emitter correctness.  Feeding conditions
[None, "A", "A", "B", None] through process_condition then finish emits
exactly two if-lines and two endif-lines, one pair for A and one for B;
the second A entry emits no condition line (the guard is shared), the B
entry first closes A then opens B, the final None entry closes B, and
finish emits nothing since no guard remains open. -/
theorem conditional_generator_guard_grouping :
    c4_emitted_lines.filter (line_starts_with "#if") = ["#if A", "#if B"]
    ∧ c4_emitted_lines.filter (line_starts_with "#endif")
        = ["#endif // A", "#endif // B"]
    ∧ (run_conditions c4_conditions).1
        = [none, some "#if A", none, some "#endif // A\n\n#if B",
           some "#endif // B\n"]
    ∧ (ConditionalGenerator.finish (run_conditions c4_conditions).2).1 = none := by
  decide

/-- Embeds the dpad_emulation JSON block of bindings.json: required keys
center and position, optional key activate. -/
structure DPadJson where
  center : Bool
  position : String
  activate : Option String
deriving DecidableEq

/-- Embeds one subpaths entry of bindings.json as consumed by
src/xrt/auxiliary/bindings/bindings.py: required keys type,
localized_name, components and monado_bindings, optional keys
dpad_emulation, steamvr_path and side. -/
structure JsonSubpath where
  type : String
  localized_name : String
  components : List String
  monado_bindings : List (String × String)
  dpad_emulation : Option DPadJson
  steamvr_path : Option String
  side : Option String
deriving DecidableEq

/-- Embeds steamvr_subpath_name from bindings.py. -/
def steamvr_subpath_name (steamvr_path : String) (subpath_type : String) : String :=
  if subpath_type == "pose" then
    steamvr_path.replace "/input/" "/pose/"
  else if subpath_type == "trigger" || subpath_type == "button" then
    steamvr_path.replace "squeeze" "grip"
  else if subpath_type == "joystick" then
    steamvr_path.replace "thumbstick" "joystick"
  else steamvr_path

/-- Embeds the Component class of bindings.py. -/
structure Component where
  subaction_path : String
  identifier_json_path : String
  steamvr_path : String
  subpath_localized_name : String
  subpath_type : String
  component_name : String
  dpad_emulation : Option DPadJson
  monado_binding : Option String
  components_for_subpath : List String
deriving DecidableEq

/-- Embeds Component.parse_components from bindings.py. -/
def parse_components (subaction_path identifier_json_path : String)
    (json_subpath : JsonSubpath) : List Component :=
  json_subpath.components.map (fun component_name =>
    let matched_dpad_emulation :=
      match json_subpath.dpad_emulation with
      | some d => if d.position == component_name then some d else none
      | none => none
    let monado_binding :=
      (json_subpath.monado_bindings.find? (fun kv => kv.1 == component_name)).map
        (fun kv => kv.2)
    let steamvr_path :=
      match json_subpath.steamvr_path with
      | some s => s
      | none => steamvr_subpath_name identifier_json_path json_subpath.type
    { subaction_path := subaction_path
      identifier_json_path := identifier_json_path
      steamvr_path := steamvr_path
      subpath_localized_name := json_subpath.localized_name
      subpath_type := json_subpath.type
      component_name := component_name
      dpad_emulation := matched_dpad_emulation
      monado_binding := monado_binding
      components_for_subpath := json_subpath.components })

/-- Embeds dpad_paths from bindings.py. -/
def dpad_paths (identifier_path : String) (center : Bool) : List String :=
  [identifier_path ++ "/dpad_up",
   identifier_path ++ "/dpad_down",
   identifier_path ++ "/dpad_left",
   identifier_path ++ "/dpad_right"]
  ++ (if center then [identifier_path ++ "/dpad_center"] else [])

/-- Embeds Component.get_full_openxr_paths from bindings.py. -/
def get_full_openxr_paths (c : Component) : List String :=
  let basepath := c.subaction_path ++ c.identifier_json_path
  if c.component_name == "position" then
    [basepath ++ "/" ++ "x", basepath ++ "/" ++ "y"]
    ++ (match c.dpad_emulation with
        | some d => dpad_paths basepath d.center
        | none => [])
    ++ [basepath]
  else
    [basepath ++ "/" ++ c.component_name, basepath]

/-- Embeds Component.has_dpad_emulation from bindings.py. -/
def has_dpad_emulation (c : Component) : Bool :=
  c.dpad_emulation.isSome

/-- Embeds find_component_in_list_by_name from bindings.py.  The name to
look for may be Python None (a component_name, being a string, never
equals None); the two optional keyword filters skip non-matching
components. -/
def find_component_in_list_by_name (name : Option String)
    (component_list : List Component) (subaction_path : Option String)
    (identifier_json_path : Option String) : Option Component :=
  component_list.find? (fun c =>
    (some c.component_name == name)
    && (subaction_path.isNone || some c.subaction_path == subaction_path)
    && (identifier_json_path.isNone
        || some c.identifier_json_path == identifier_json_path))

/-- Embeds the DPad class of bindings.py. -/
structure DPad where
  center : Bool
  paths : List String
  position_component : Option Component
  activate_component : Option Component
deriving DecidableEq

/-- Embeds DPad.parse_dpad from bindings.py: the component lookups return
None (no error) when the referenced name is absent. -/
def parse_dpad (identifier_path : String) (component_list : List Component)
    (dpad_json : DPadJson) : DPad :=
  let position_component :=
    find_component_in_list_by_name (some dpad_json.position) component_list none none
  let activate_component :=
    find_component_in_list_by_name dpad_json.activate component_list none none
  { center := dpad_json.center
    paths := dpad_paths identifier_path dpad_json.center
    position_component := position_component
    activate_component := activate_component }

/-- Embeds the Identifier class of bindings.py. -/
structure Identifier where
  subaction_path : String
  identifier_path : String
  json_path : String
  components : List Component
  dpad : Option DPad
deriving DecidableEq

/-- Embeds the profile JSON fields consumed by Identifier.parse_identifiers. -/
structure JsonProfile where
  subaction_paths : List String
  subpaths : List (String × JsonSubpath)
deriving DecidableEq

/-- Embeds Identifier.parse_identifiers from bindings.py: per subaction
path, per subpath (skipping sided subpaths on the other hand), parse the
components and the optional dpad block. -/
def parse_identifiers (json_profile : JsonProfile) : List Identifier :=
  json_profile.subaction_paths.flatMap (fun subaction_path =>
    (json_profile.subpaths.filter (fun itm =>
      match itm.2.side with
      | some side => "/user/hand/" ++ side == subaction_path
      | none => true)).map (fun itm =>
      let json_path := itm.1
      let json_subpath := itm.2
      let identifier_path := subaction_path ++ json_path
      let component_list := parse_components subaction_path json_path json_subpath
      let dpad := json_subpath.dpad_emulation.map
        (parse_dpad identifier_path component_list)
      { subaction_path := subaction_path
        identifier_path := identifier_path
        json_path := json_path
        components := component_list
        dpad := dpad }))

/-- The claim C6 subpath: type joystick, components click and value, no
dpad emulation. -/
def c6_json_subpath_cv : JsonSubpath :=
  { type := "joystick"
    localized_name := "Thumbstick"
    components := ["click", "value"]
    monado_bindings := []
    dpad_emulation := none
    steamvr_path := none
    side := none }

/-- The same subpath with components click and position. -/
def c6_json_subpath_cp : JsonSubpath :=
  { c6_json_subpath_cv with components := ["click", "position"] }

/-- Union of get_full_openxr_paths over the parsed components of a
subpath under /user/hand/left and /input/thumbstick. -/
def c6_union (j : JsonSubpath) : Finset String :=
  ((parse_components "/user/hand/left" "/input/thumbstick" j).flatMap
    get_full_openxr_paths).toFinset

/-- The literal path set named by claim C6. -/
def c6_claimed_set : Finset String :=
  {"/user/hand/left/input/thumbstick/click",
   "/user/hand/left/input/thumbstick",
   "/user/hand/left/input/thumbstick/x",
   "/user/hand/left/input/thumbstick/y"}

/-- C6 counterexample: with components click and value the expanded path
union is not the claimed four-element set: no position component is
present, so no x or y path is produced, while the value path is. -/
theorem path_expansion_counterexample :
    c6_union c6_json_subpath_cv ≠ c6_claimed_set := by
  decide

/-- C6 amended: with components click and value the union is the click,
value and bare thumbstick paths (the bare path is emitted for every
component); the claimed set with the x and y paths arises exactly from a
subpath carrying a position component, as with components click and
position. -/
theorem path_expansion_amended :
    c6_union c6_json_subpath_cv
      = {"/user/hand/left/input/thumbstick/click",
         "/user/hand/left/input/thumbstick/value",
         "/user/hand/left/input/thumbstick"}
    ∧ c6_union c6_json_subpath_cp = c6_claimed_set := by
  decide

/-- A thumbstick subpath whose dpad_emulation activate entry names a
component that does not exist in the component list. -/
def c8_json_subpath : JsonSubpath :=
  { type := "joystick"
    localized_name := "Thumbstick"
    components := ["click", "position"]
    monado_bindings := [("click", "XRT_INPUT_TEST_CLICK"),
                        ("position", "XRT_INPUT_TEST_POS")]
    dpad_emulation := some { center := false, position := "position",
                             activate := some "nonexistent" }
    steamvr_path := none
    side := none }

/-- A profile holding only c8_json_subpath. -/
def c8_profile : JsonProfile :=
  { subaction_paths := ["/user/hand/left"]
    subpaths := [("/input/thumbstick", c8_json_subpath)] }

/-- C8 counterexample: the loader parses c8_profile to completion, with
no error, and the resulting model contains the dangling reference: the
single identifier carries a dpad whose activate_component is None while
its position_component was found. -/
theorem loader_lookup_counterexample :
    (parse_identifiers c8_profile).map
        (fun i => i.dpad.map
          (fun d => (d.activate_component, d.position_component.isSome)))
      = [some (none, true)] := by
  decide

/-- C8 amended: when the dpad_emulation activate entry names a component
absent from the subpath's component list, parse_dpad does not fail; it
returns a DPad whose activate_component is None, so the dangling
reference survives loading and can only surface later, at emission. -/
theorem parse_dpad_dangling_activate (identifier_path : String)
    (component_list : List Component) (dpad_json : DPadJson) (n : String)
    (hact : dpad_json.activate = some n)
    (hn : ∀ c ∈ component_list, c.component_name ≠ n) :
    (parse_dpad identifier_path component_list dpad_json).activate_component
      = none := by
  unfold parse_dpad
  simp only
  unfold find_component_in_list_by_name
  rw [List.find?_eq_none]
  intro c hc
  rw [hact]
  simp [hn c hc]

/-- Witness for the amended C8 theorem at the concrete profile. -/
theorem parse_dpad_dangling_activate_witness :
    (parse_dpad "/user/hand/left/input/thumbstick"
        (parse_components "/user/hand/left" "/input/thumbstick" c8_json_subpath)
        { center := false, position := "position",
          activate := some "nonexistent" }).activate_component = none :=
  parse_dpad_dangling_activate "/user/hand/left/input/thumbstick"
    (parse_components "/user/hand/left" "/input/thumbstick" c8_json_subpath)
    { center := false, position := "position", activate := some "nonexistent" }
    "nonexistent" rfl (by decide)

/-- Replace all non-overlapping occurrences of a non-empty pattern in a
character list, scanning left to right (the semantics of str.replace for
the non-empty patterns used by bindings.py).  Each step consumes at least
one character, so fuel equal to the list length suffices. -/
def replace_chars (pat repl : List Char) : Nat → List Char → List Char
  | 0, l => l
  | _, [] => []
  | Nat.succ f, c :: rest =>
    if 1 ≤ pat.length ∧ pat.isPrefixOf (c :: rest) = true then
      repl ++ replace_chars pat repl f ((c :: rest).drop pat.length)
    else c :: replace_chars pat repl f rest

/-- str.replace on strings, via replace_chars. -/
def string_replace (s pat repl : String) : String :=
  String.mk (replace_chars pat.data repl.data s.data.length s.data)

/-- Embeds Profile.__strip_profile_prefix from bindings.py: drop the
interaction_profiles and virtual_profiles path markers. -/
def strip_profile_path (profile_path : String) : String :=
  string_replace (string_replace profile_path "/interaction_profiles/" "")
    "/virtual_profiles/" ""

/-- The profile data the diamond check consumes: the profile name and the
extended_by list of stripped parent paths (empty when absent). -/
structure ProfileD where
  name : String
  extended_by : List String
deriving DecidableEq

/-- Embeds Profile.is_parent_profile on profiles given by index (Python
compares object identity, which for the distinct Profile objects of a
Bindings is index identity): the parent's stripped path must occur in the
child's extended_by list. -/
def is_parent_profile_of (ps : List ProfileD) (parent child : Nat) : Bool :=
  if parent == child then false
  else
    match ps[parent]?, ps[child]? with
    | some p, some c => c.extended_by.contains (strip_profile_path p.name)
    | _, _ => false

/-- Embeds Bindings.__set_parent_profile_refs: the parents of a profile
are all profiles standing in is_parent_profile to it. -/
def parent_idxs (ps : List ProfileD) (child : Nat) : List Nat :=
  (List.range ps.length).filter (fun parent => is_parent_profile_of ps parent child)

/-- Embeds Bindings.__has_diamonds: depth-first traversal of the parent
graph threading the accumulated visited-name list, reporting true as soon
as a name is reached twice; the loop over parent_profiles is the fold.
Python recursion is unbounded; the fuel argument only bounds the nesting
depth and mine_for_diamond_errors passes more fuel than any traversal can
consume (each nesting level adds a fresh name to visited), so the none
(out-of-fuel) case is unreachable there. -/
def hasDiamonds (ps : List ProfileD) : Nat → Nat → List String →
    Option (Bool × List String)
  | 0, _, _ => none
  | Nat.succ f, i, visited =>
    match ps[i]? with
    | none => some (false, visited)
    | some p =>
      if p.name ∈ visited then some (true, visited)
      else
        (parent_idxs ps i).foldl
          (fun acc j =>
            match acc with
            | none => none
            | some (true, v) => some (true, v)
            | some (false, v) => hasDiamonds ps f j v)
          (some (false, visited ++ [p.name]))

/-- The per-profile loop of Bindings.__mine_for_diamond_errors: each
profile is mined with a fresh visited list; the first diamond yields the
RuntimeError message. -/
def mine_go (ps : List ProfileD) (fuel : Nat) : List Nat → Option (Option String)
  | [] => some none
  | i :: rest =>
    match ps[i]? with
    | none => some none
    | some p =>
      match hasDiamonds ps fuel i [] with
      | none => none
      | some (true, _) =>
          some (some ("Interaction Profile: " ++ p.name
            ++ " in bindings.json has a diamond hierarchy, this is not supported."))
      | some (false, _) => mine_go ps fuel rest

/-- Embeds Bindings.__mine_for_diamond_errors, run by Bindings.__init__
right after the parent references are set and before any profile merging:
some (some msg) is the raised RuntimeError, some none is a quiet pass,
none (never reached at this fuel) would be exhausted fuel. -/
def mine_for_diamond_errors (ps : List ProfileD) : Option (Option String) :=
  mine_go ps (ps.length + 1) (List.range ps.length)

/-- The cyclic profile set of claim C5: a extends b, b extends c,
c extends a. -/
def c5_cycle : List ProfileD :=
  [{ name := "/interaction_profiles/test/a", extended_by := ["test/b"] },
   { name := "/interaction_profiles/test/b", extended_by := ["test/c"] },
   { name := "/interaction_profiles/test/c", extended_by := ["test/a"] }]

/-- The linear chain of claim C5: a extends b, b extends c. -/
def c5_chain : List ProfileD :=
  [{ name := "/interaction_profiles/test/a", extended_by := ["test/b"] },
   { name := "/interaction_profiles/test/b", extended_by := ["test/c"] },
   { name := "/interaction_profiles/test/c", extended_by := [] }]

/-- C5: Diamond detection.  On the cyclic profile set the constructor's
diamond mining raises the RuntimeError naming the offending profile a,
before any merging; on the linear chain it raises nothing. -/
theorem diamond_detection :
    mine_for_diamond_errors c5_cycle
      = some (some ("Interaction Profile: /interaction_profiles/test/a"
          ++ " in bindings.json has a diamond hierarchy, this is not supported."))
    ∧ mine_for_diamond_errors c5_chain = some none := by
  decide

/-- str.upper for the ASCII call names of the IPC protocol, per
character. -/
def to_upper_string (s : String) : String :=
  String.mk (s.data.map Char.toUpper)

/-- Embeds the id handling of Call.__init__ from
src/xrt/ipc/ipcproto/common.py: self.id is the JSON id value when the key
is present, and `if not self.id` then replaces a missing or falsy (empty)
id by "IPC_" plus the uppercased call name. -/
def call_effective_id (name : String) (json_id : Option String) : String :=
  match json_id with
  | some s => if s == "" then "IPC_" ++ to_upper_string name else s
  | none => "IPC_" ++ to_upper_string name

/-- Embeds the Call class of common.py, restricted to the fields the id
uniqueness claim concerns. -/
structure Call where
  name : String
  id : String
deriving DecidableEq

/-- Embeds Proto.__init__ from common.py: one Call per JSON entry (JSON
object keys are unique, so the names come as an association list) whose
name does not start with a dollar sign, each given its effective id. -/
def proto_calls (data : List (String × Option String)) : List Call :=
  (data.filter (fun nv => !(line_starts_with "$" nv.1))).map
    (fun nv => { name := nv.1, id := call_effective_id nv.1 nv.2 })

/-- C7 counterexample: a protocol whose two calls both carry the explicit
id "X" loads successfully — Proto.__init__ performs no uniqueness check —
and the resulting calls list has two equal id values. -/
theorem unique_call_ids_counterexample :
    (proto_calls [("a", some "X"), ("b", some "X")]).map (fun c => c.id)
        = ["X", "X"]
    ∧ ¬ ((proto_calls [("a", some "X"), ("b", some "X")]).map
        (fun c => c.id)).Nodup := by
  decide

/-- Cancel a common left part of a string append. -/
theorem string_append_left_cancel (p a b : String) (h : p ++ a = p ++ b) :
    a = b := by
  have hd : (p ++ a).data = (p ++ b).data := by rw [h]
  simp only [String.data_append] at hd
  exact String.ext (List.append_cancel_left hd)

/-- C7 amended: Proto.parse does not enforce id uniqueness, so distinct
explicit ids are the caller's duty; when every call leaves the id to the
default "IPC_" + uppercased name and the uppercased names are pairwise
distinct, the loaded calls do have pairwise distinct ids. -/
theorem unique_call_ids_amended (data : List (String × Option String))
    (hids : ∀ nv ∈ data, nv.2 = none)
    (hnames : (data.map (fun nv => to_upper_string nv.1)).Nodup) :
    ((proto_calls data).map (fun c => c.id)).Nodup := by
  unfold proto_calls
  rw [List.map_map]
  have hmap : (data.filter (fun nv => !(line_starts_with "$" nv.1))).map
        ((fun c : Call => c.id) ∘ (fun nv : String × Option String =>
          { name := nv.1, id := call_effective_id nv.1 nv.2 }))
      = (data.filter (fun nv => !(line_starts_with "$" nv.1))).map
        (fun nv => "IPC_" ++ to_upper_string nv.1) := by
    apply List.map_congr_left
    intro nv hnv
    have hmem : nv ∈ data := List.mem_of_mem_filter hnv
    have hid := hids nv hmem
    simp [call_effective_id, hid]
  rw [hmap]
  have hfil : ((data.filter (fun nv => !(line_starts_with "$" nv.1))).map
      (fun nv => to_upper_string nv.1)).Nodup :=
    ((List.filter_sublist data).map (fun nv => to_upper_string nv.1)).nodup hnames
  have hrw : (data.filter (fun nv => !(line_starts_with "$" nv.1))).map
        (fun nv => "IPC_" ++ to_upper_string nv.1)
      = ((data.filter (fun nv => !(line_starts_with "$" nv.1))).map
        (fun nv => to_upper_string nv.1)).map (fun s => "IPC_" ++ s) := by
    rw [List.map_map]
    rfl
  rw [hrw]
  exact hfil.map (fun a b hab => string_append_left_cancel "IPC_" a b hab)

/-- Witness for the amended C7 theorem at a concrete protocol. -/
theorem unique_call_ids_amended_witness :
    ((proto_calls [("a", none), ("b", none)]).map (fun c => c.id)).Nodup :=
  unique_call_ids_amended [("a", none), ("b", none)] (by decide) (by decide)

/-- Embeds the xrt_input_name_string emission at the end of
generate_bindings_c in bindings.py.  The Python loop is
`for input in inputs` over a hash set of binding names, so the
enumeration order of that set is made an explicit parameter: the lines
are a function of the model together with the set iteration order. -/
def xrt_input_name_string_lines (inputs : List String) : List String :=
  ["const char *",
   "xrt_input_name_string(enum xrt_input_name input)",
   "\x7b",
   "\tswitch(input)",
   "\t\x7b"]
  ++ inputs.map (fun i => "\tcase " ++ i ++ ": return \"" ++ i ++ "\";")
  ++ ["\tdefault: return \"UNKNOWN\";",
      "\t\x7d",
      "\x7d"]

/-- C9 counterexample: two runs over the same two-element inputs set that
enumerate it in different orders (both orders are enumerations of the
same set, being permutations of each other) emit different bytes, so the
emitted text is not a function of the model alone. -/
theorem emitter_determinism_counterexample :
    (["XRT_INPUT_GENERIC_HEAD_POSE", "XRT_INPUT_GENERIC_TRACKER_POSE"] :
        List String).Perm
      ["XRT_INPUT_GENERIC_TRACKER_POSE", "XRT_INPUT_GENERIC_HEAD_POSE"]
    ∧ xrt_input_name_string_lines
        ["XRT_INPUT_GENERIC_HEAD_POSE", "XRT_INPUT_GENERIC_TRACKER_POSE"]
      ≠ xrt_input_name_string_lines
        ["XRT_INPUT_GENERIC_TRACKER_POSE", "XRT_INPUT_GENERIC_HEAD_POSE"] := by
  decide

/-- C9 amended: the emitters are pure functions of the model plus the
iteration order of the underlying hash sets.  Any two enumerations of the
same inputs set produce the same emitted lines up to permutation of the
set-derived case lines; only a fixed iteration order makes the output
byte-identical. -/
theorem emitter_determinism_amended (inputs1 inputs2 : List String)
    (h : inputs1.Perm inputs2) :
    (xrt_input_name_string_lines inputs1).Perm
      (xrt_input_name_string_lines inputs2) := by
  unfold xrt_input_name_string_lines
  exact ((h.map _).append_left _).append_right _

/-- Witness for the amended C9 theorem at a concrete enumeration pair. -/
theorem emitter_determinism_amended_witness :
    (xrt_input_name_string_lines ["A", "B"]).Perm
      (xrt_input_name_string_lines ["B", "A"]) :=
  emitter_determinism_amended ["A", "B"] ["B", "A"] (by decide)

/-- Python set.add on a set modelled as its insertion-ordered
duplicate-free element list. -/
def set_add (s : List String) (path : String) : List String :=
  if path ∈ s then s else s ++ [path]

/-- One dict update of PathsByLengthCollector.add_path: an existing
length key gets the path added to its set, a new key is appended in dict
insertion order with a singleton set. -/
def by_length_update : List (Nat × List String) → Nat → String →
    List (Nat × List String)
  | [], length, path => [(length, [path])]
  | (k, s) :: rest, length, path =>
    if k = length then (k, set_add s path) :: rest
    else (k, s) :: by_length_update rest length path

/-- Embeds the PathsByLengthCollector class of bindings.py. -/
structure PathsByLengthCollector where
  by_length : List (Nat × List String)

/-- Embeds PathsByLengthCollector.add_path. -/
def add_path (c : PathsByLengthCollector) (path : String) :
    PathsByLengthCollector :=
  ⟨by_length_update c.by_length path.length path⟩

/-- Embeds PathsByLengthCollector.add_paths. -/
def add_paths (c : PathsByLengthCollector) (paths : List String) :
    PathsByLengthCollector :=
  paths.foldl add_path c

/-- Embeds PathsByLengthCollector.to_dict_of_lists: each set becomes the
list of its elements (already the representation here, enumerated in
insertion order). -/
def to_dict_of_lists (c : PathsByLengthCollector) : List (Nat × List String) :=
  c.by_length.map (fun e => (e.1, e.2))

/-- A call against the collector: one add_path or one add_paths. -/
inductive CollectorOp where
  | single (path : String)
  | many (paths : List String)

/-- Apply one collector call. -/
def apply_op (c : PathsByLengthCollector) : CollectorOp → PathsByLengthCollector
  | CollectorOp.single p => add_path c p
  | CollectorOp.many ps => add_paths c ps

/-- Run a sequence of collector calls from the freshly constructed
collector. -/
def run_ops (ops : List CollectorOp) : PathsByLengthCollector :=
  ops.foldl apply_op ⟨[]⟩

/-- All paths ever passed to the collector by a sequence of calls. -/
def ops_paths : List CollectorOp → List String
  | [] => []
  | CollectorOp.single p :: rest => p :: ops_paths rest
  | CollectorOp.many ps :: rest => ps ++ ops_paths rest

/-- The collector invariant: buckets hold only paths of their key length,
buckets are duplicate-free, and the union of the buckets is exactly the
added set. -/
def collector_inv (c : PathsByLengthCollector) (added : List String) : Prop :=
  (∀ e ∈ c.by_length, ∀ p ∈ e.2, p.length = e.1)
  ∧ (∀ e ∈ c.by_length, e.2.Nodup)
  ∧ (∀ p, (∃ e ∈ c.by_length, p ∈ e.2) ↔ p ∈ added)

/-- Membership through set_add. -/
theorem mem_set_add (s : List String) (path q : String) :
    q ∈ set_add s path ↔ q ∈ s ∨ q = path := by
  unfold set_add
  split
  · constructor
    · exact Or.inl
    · rintro (h | rfl)
      · exact h
      · assumption
  · simp

/-- set_add preserves freedom from duplicates. -/
theorem nodup_set_add (s : List String) (path : String) (h : s.Nodup) :
    (set_add s path).Nodup := by
  unfold set_add
  split
  · exact h
  · rename_i hnot
    simpa using List.Nodup.append h (List.nodup_singleton path)
      (by simpa using hnot)

/-- Bucket lengths survive a by_length_update at the path's length. -/
theorem by_length_update_lengths (l : List (Nat × List String)) (path : String)
    (h : ∀ e ∈ l, ∀ p ∈ e.2, p.length = e.1) :
    ∀ e ∈ by_length_update l path.length path, ∀ p ∈ e.2, p.length = e.1 := by
  induction l with
  | nil =>
    intro e he p hp
    simp only [by_length_update, List.mem_singleton] at he
    subst he
    simp only [List.mem_singleton] at hp
    subst hp
    rfl
  | cons hd tl ih =>
    intro e he p hp
    match hd with
    | (k, s) =>
      simp only [by_length_update] at he
      by_cases hk : k = path.length
      · rw [if_pos hk] at he
        rcases List.mem_cons.mp he with rfl | htl
        · rcases (mem_set_add s path p).mp hp with hps | rfl
          · exact h (k, s) (List.mem_cons_self _ _) p hps
          · exact hk.symm
        · exact h e (List.mem_cons_of_mem _ htl) p hp
      · rw [if_neg hk] at he
        rcases List.mem_cons.mp he with rfl | htl
        · exact h (k, s) (List.mem_cons_self _ _) p hp
        · exact ih (fun e2 he2 => h e2 (List.mem_cons_of_mem _ he2)) e htl p hp

/-- Buckets stay duplicate-free through a by_length_update. -/
theorem by_length_update_nodup (l : List (Nat × List String)) (length : Nat)
    (path : String) (h : ∀ e ∈ l, e.2.Nodup) :
    ∀ e ∈ by_length_update l length path, e.2.Nodup := by
  induction l with
  | nil =>
    intro e he
    simp only [by_length_update, List.mem_singleton] at he
    subst he
    simp
  | cons hd tl ih =>
    intro e he
    match hd with
    | (k, s) =>
      simp only [by_length_update] at he
      by_cases hk : k = length
      · rw [if_pos hk] at he
        rcases List.mem_cons.mp he with rfl | htl
        · exact nodup_set_add s path (h (k, s) (List.mem_cons_self _ _))
        · exact h e (List.mem_cons_of_mem _ htl)
      · rw [if_neg hk] at he
        rcases List.mem_cons.mp he with rfl | htl
        · exact h (k, s) (List.mem_cons_self _ _)
        · exact ih (fun e2 he2 => h e2 (List.mem_cons_of_mem _ he2)) e htl

/-- Bucket membership through a by_length_update: the union gains exactly
the added path. -/
theorem by_length_update_mem (l : List (Nat × List String)) (length : Nat)
    (path q : String) :
    (∃ e ∈ by_length_update l length path, q ∈ e.2)
      ↔ (∃ e ∈ l, q ∈ e.2) ∨ q = path := by
  induction l with
  | nil =>
    simp [by_length_update]
  | cons hd tl ih =>
    match hd with
    | (k, s) =>
      simp only [by_length_update]
      by_cases hk : k = length
      · rw [if_pos hk]
        constructor
        · rintro ⟨e, he, hq⟩
          rcases List.mem_cons.mp he with rfl | htl
          · rcases (mem_set_add s path q).mp hq with hqs | rfl
            · exact Or.inl ⟨(k, s), List.mem_cons_self _ _, hqs⟩
            · exact Or.inr rfl
          · exact Or.inl ⟨e, List.mem_cons_of_mem _ htl, hq⟩
        · rintro (⟨e, he, hq⟩ | rfl)
          · rcases List.mem_cons.mp he with rfl | htl
            · exact ⟨(k, set_add s path), List.mem_cons_self _ _,
                (mem_set_add s path q).mpr (Or.inl hq)⟩
            · exact ⟨e, List.mem_cons_of_mem _ htl, hq⟩
          · exact ⟨(k, set_add s q), List.mem_cons_self _ _,
              (mem_set_add s q q).mpr (Or.inr rfl)⟩
      · rw [if_neg hk]
        constructor
        · rintro ⟨e, he, hq⟩
          rcases List.mem_cons.mp he with rfl | htl
          · exact Or.inl ⟨(k, s), List.mem_cons_self _ _, hq⟩
          · rcases ih.mp ⟨e, htl, hq⟩ with ⟨e2, he2, hq2⟩ | rfl
            · exact Or.inl ⟨e2, List.mem_cons_of_mem _ he2, hq2⟩
            · exact Or.inr rfl
        · rintro (⟨e, he, hq⟩ | rfl)
          · rcases List.mem_cons.mp he with rfl | htl
            · exact ⟨(k, s), List.mem_cons_self _ _, hq⟩
            · rcases ih.mpr (Or.inl ⟨e, htl, hq⟩) with ⟨e2, he2, hq2⟩
              exact ⟨e2, List.mem_cons_of_mem _ he2, hq2⟩
          · rcases ih.mpr (Or.inr rfl) with ⟨e2, he2, hq2⟩
            exact ⟨e2, List.mem_cons_of_mem _ he2, hq2⟩

/-- add_path preserves the collector invariant, recording the new path. -/
theorem add_path_inv (c : PathsByLengthCollector) (added : List String)
    (path : String) (h : collector_inv c added) :
    collector_inv (add_path c path) (added ++ [path]) := by
  obtain ⟨h1, h2, h3⟩ := h
  refine ⟨by_length_update_lengths c.by_length path h1,
    by_length_update_nodup c.by_length path.length path h2, ?_⟩
  intro p
  rw [show (add_path c path).by_length
      = by_length_update c.by_length path.length path from rfl]
  rw [by_length_update_mem c.by_length path.length path p, h3 p]
  simp

/-- add_paths preserves the collector invariant, recording the new
paths. -/
theorem add_paths_inv (paths : List String) :
    ∀ c added, collector_inv c added
      → collector_inv (add_paths c paths) (added ++ paths) := by
  induction paths with
  | nil =>
    intro c added h
    simpa [add_paths] using h
  | cons p rest ih =>
    intro c added h
    have hstep := add_path_inv c added p h
    have hrest := ih (add_path c p) (added ++ [p]) hstep
    have : added ++ [p] ++ rest = added ++ p :: rest := by simp
    rw [this] at hrest
    simpa [add_paths, List.foldl_cons] using hrest

/-- Running a suffix of calls from an invariant-holding state keeps the
invariant, recording the added paths. -/
theorem run_ops_inv (ops : List CollectorOp) :
    ∀ c added, collector_inv c added
      → collector_inv (ops.foldl apply_op c) (added ++ ops_paths ops) := by
  induction ops with
  | nil =>
    intro c added h
    simpa [ops_paths] using h
  | cons op rest ih =>
    intro c added h
    match op with
    | CollectorOp.single p =>
      have hstep := add_path_inv c added p h
      have hrest := ih (add_path c p) (added ++ [p]) hstep
      have : added ++ [p] ++ ops_paths rest = added ++ ops_paths
          (CollectorOp.single p :: rest) := by
        simp [ops_paths]
      rw [this] at hrest
      simpa [apply_op] using hrest
    | CollectorOp.many ps =>
      have hstep := add_paths_inv ps c added h
      have hrest := ih (add_paths c ps) (added ++ ps) hstep
      have : added ++ ps ++ ops_paths rest = added ++ ops_paths
          (CollectorOp.many ps :: rest) := by
        simp [ops_paths]
      rw [this] at hrest
      simpa [apply_op] using hrest

/-- C10: Length-bucket invariant of PathsByLengthCollector.  After any
sequence of add_path and add_paths calls, to_dict_of_lists maps each key
L to a duplicate-free list of strings of length exactly L, and the union
of the lists is exactly the set of paths ever added. -/
theorem paths_by_length_collector_invariant (ops : List CollectorOp) :
    (∀ e ∈ to_dict_of_lists (run_ops ops), ∀ p ∈ e.2, p.length = e.1)
    ∧ (∀ e ∈ to_dict_of_lists (run_ops ops), e.2.Nodup)
    ∧ (∀ p, (∃ e ∈ to_dict_of_lists (run_ops ops), p ∈ e.2)
        ↔ p ∈ ops_paths ops) := by
  have hbase : collector_inv ⟨[]⟩ [] := by
    refine ⟨?_, ?_, ?_⟩ <;> simp [collector_inv]
  have h := run_ops_inv ops ⟨[]⟩ [] hbase
  obtain ⟨h1, h2, h3⟩ := h
  refine ⟨?_, ?_, ?_⟩
  · intro e he
    exact h1 e (by simpa [to_dict_of_lists, run_ops] using he)
  · intro e he
    exact h2 e (by simpa [to_dict_of_lists, run_ops] using he)
  · intro p
    have := h3 p
    simpa [to_dict_of_lists, run_ops] using this
